import Mathlib

/-!
# Verification of the movie-listing backend (movie_app)

A shallow embedding of the parts of `movie_app` (models.py, schema.py,
crud.py, main.py) that concern the threaded-comment tree, the rating
aggregator and the ownership policy, together with theorems settling the
specification claims about them.

Conventions of the embedding:
* the relational store is a `DB` structure holding the rows of the
  `movies`, `comments` and `ratings` tables as lists, plus autoincrement
  counters for new primary keys;
* SQLAlchemy queries (`filter`/`first`/`offset`/`limit`) become
  `List.find?` / `List.filter` / `List.drop` / `List.take`;
* HTTP failures (`HTTPException(status, detail)`) become the
  `ApiError.http status detail` value; routes return the resulting `DB`
  paired with `Except ApiError result` (the `DB` component is unchanged
  exactly when the route performs no write);
* the SQLAlchemy cascade `all, delete-orphan` declared on
  `Movie.comments` / `Movie.ratings` / `Comment.replies` (models.py) is
  embedded as the corresponding transitive row removal;
* SQL `AVG` over an integer column is embedded as the exact rational
  mean, `none` on an empty row set (as `scalar()` returns `NULL`);
* timestamps are omitted: no claim mentions them.
-/

namespace MovieApp

/-- Row of the `movies` table (models.py, class Movie); timestamps omitted.
`release_date` is abstracted as a day number. -/
structure Movie where
  id : Nat
  title : String
  description : String
  release_date : Nat
  user_id : Nat
deriving DecidableEq, Repr

/-- Row of the `comments` table (models.py, class Comment); timestamps
omitted.  `parent_comment_id` is `none` for a root comment. -/
structure Comment where
  id : Nat
  comment_text : String
  movie_id : Nat
  user_id : Nat
  parent_comment_id : Option Nat
deriving DecidableEq, Repr

/-- Row of the `ratings` table (models.py, class Rating). -/
structure Rating where
  id : Nat
  rating : Int
  movie_id : Nat
  user_id : Nat
deriving DecidableEq, Repr

/-- The relational store: the three tables the claims are about, plus
autoincrement counters used when inserting new rows. -/
structure DB where
  movies : List Movie
  comments : List Comment
  ratings : List Rating
  nextCommentId : Nat
  nextRatingId : Nat
deriving DecidableEq, Repr

/-- An HTTP-level failure: `HTTPException(status_code, detail)` in
main.py / crud.py. -/
inductive ApiError where
  | http (status : Nat) (detail : String)
deriving DecidableEq, Repr

/-- The status code of an `ApiError`. -/
def ApiError.status : ApiError → Nat
  | .http s _ => s

/-- Status code of the error of a route result, `none` on success. -/
def errStatus {α : Type} : Except ApiError α → Option Nat
  | .error e => some e.status
  | .ok _ => none

/-- Request body of the comment-creation routes (schema.py,
`CommentCreate`): it carries only `comment_text` — there is no field for
a movie id or a parent id, so a caller cannot supply either. -/
structure CommentCreate where
  comment_text : String
deriving DecidableEq, Repr

/-- Payload of the movie-update route (schema.py, `MovieUpdate`):
`title` required, `description` and `release_date` optional. -/
structure MovieUpdate where
  title : String
  description : Option String
  release_date : Option Nat
deriving DecidableEq, Repr

/-- Python truthiness of an optional integer (`if user_id:` in
crud.get_movie): `None` and `0` are falsy. -/
def truthy : Option Nat → Bool
  | none => false
  | some n => n != 0

/- ### Error values used by the routes -/

/-- `HTTPException(404, "Movie not found")` (main.py). -/
def notFoundMovie : ApiError := .http 404 "Movie not found"

/-- `HTTPException(404, "Comment not found")` (main.py, delete_comment). -/
def notFoundComment : ApiError := .http 404 "Comment not found"

/-- `HTTPException(403, "Not authorized to delete this comment")`
(main.py, delete_comment). -/
def forbiddenComment : ApiError := .http 403 "Not authorized to delete this comment"

/-- The `ValueError("Parent comment does not exist")` raised by
crud.create_nested_comment, surfaced by main.add_nested_comment as
`HTTPException(status.HTTP_400_BAD_REQUEST, str(e))`. -/
def badRequestParent : ApiError := .http 400 "Parent comment does not exist"

/-- The pydantic `ValueError("Rating must be between 1 and 10")` raised
by `RatingBase.check_rating`, surfaced by FastAPI as a 422 validation
response before the route handler runs. -/
def ratingOutOfRange : ApiError := .http 422 "Rating must be between 1 and 10"

/- ### Movies CRUD (crud.py) -/

/-- crud.get_movie: `query(Movie).filter(Movie.id == id)` then, only when
`user_id` is truthy (`if user_id:`), additionally
`.filter(Movie.user_id == user_id)`; `.first()`.  (The comment loading it
also performs does not affect which row is returned.) -/
def crud_get_movie (db : DB) (id : Nat) (user_id : Option Nat) : Option Movie :=
  db.movies.find? (fun m => m.id == id && (!truthy user_id || m.user_id == user_id.getD 0))

/-- crud.delete_movie: look the movie up scoped by `(movie_id, user_id)`
via `get_movie`; if absent return `None`; otherwise `db.delete(movie)`,
which by the `cascade="all, delete-orphan"` declarations on
`Movie.comments` and `Movie.ratings` (models.py) also removes every
comment and rating attached to the movie. -/
def crud_delete_movie (db : DB) (movie_id : Nat) (user_id : Nat) : DB × Option Movie :=
  match crud_get_movie db movie_id (some user_id) with
  | none => (db, none)
  | some movie =>
    ({ db with
        movies := db.movies.filter (fun m => m.id != movie_id)
        comments := db.comments.filter (fun c => c.movie_id != movie_id)
        ratings := db.ratings.filter (fun r => r.movie_id != movie_id) },
     some movie)

/-- main.delete_movie route: call crud.delete_movie; `None` becomes
`HTTPException(404, "Movie not found")`, otherwise the deleted movie is
returned. -/
def delete_movie_route (db : DB) (movie_id : Nat) (user : Nat) : DB × Except ApiError Movie :=
  match crud_delete_movie db movie_id user with
  | (db2, some m) => (db2, .ok m)
  | (_, none) => (db, .error notFoundMovie)

/-- Python `payload.title or movie.title`: an empty string is falsy. -/
def pyOrStr (new old : String) : String :=
  if new == "" then old else new

/-- Python `payload.description or movie.description` with an optional
new value: `None` and the empty string are falsy. -/
def pyOrOptStr (new : Option String) (old : String) : String :=
  match new with
  | none => old
  | some s => if s == "" then old else s

/-- Python `payload.release_date or movie.release_date`: `None` is falsy,
a date object is always truthy. -/
def pyOrOptNat (new : Option Nat) (old : Nat) : Nat :=
  match new with
  | none => old
  | some d => d

/-- main.update_movie route: look up
`query(Movie).filter(Movie.id == movie_id, Movie.user_id == user.id).first()`;
absent (including exists-but-not-owned) raises
`HTTPException(404, "Movie not found")`; otherwise each field is
overwritten with `payload.field or movie.field` and committed. -/
def update_movie_route (db : DB) (movie_id : Nat) (payload : MovieUpdate) (user : Nat) :
    DB × Except ApiError Movie :=
  match db.movies.find? (fun m => m.id == movie_id && m.user_id == user) with
  | none => (db, .error notFoundMovie)
  | some movie =>
    let movie2 : Movie :=
      { movie with
          title := pyOrStr payload.title movie.title
          description := pyOrOptStr payload.description movie.description
          release_date := pyOrOptNat payload.release_date movie.release_date }
    ({ db with
        movies := db.movies.map (fun m =>
          if m.id == movie_id && m.user_id == user then movie2 else m) },
     .ok movie2)

/- ### Comments CRUD (crud.py / main.py) -/

/-- crud.get_comment: `query(Comment).filter(Comment.id == comment_id).first()`. -/
def get_comment (db : DB) (comment_id : Nat) : Option Comment :=
  db.comments.find? (fun c => c.id == comment_id)

/-- The direct replies of comment `pid`:
`query(Comment).filter(Comment.parent_comment_id == pid).all()`. -/
def childrenOf (cs : List Comment) (pid : Nat) : List Comment :=
  cs.filter (fun c => c.parent_comment_id == some pid)

/-- Does the parent chain starting at comment id `cid` reach `root`
within `fuel` upward steps?  Each step resolves the current id with
`find?` (the primary-key lookup) and follows `parent_comment_id`.  With
`fuel = cs.length` this captures every chain of an acyclic table, since
a reply's parent row always pre-exists it (autoincrement ids). -/
def chainToB (cs : List Comment) : Nat → Nat → Nat → Bool
  | 0, root, cid => cid == root
  | fuel+1, root, cid =>
    cid == root ||
      (match cs.find? (fun c => c.id == cid) with
       | none => false
       | some c =>
         match c.parent_comment_id with
         | none => false
         | some p => chainToB cs fuel root p)

/-- Membership of comment `c` in the subtree rooted at comment id
`root`: its parent chain reaches `root`. -/
def inSubtreeB (cs : List Comment) (root : Nat) (c : Comment) : Bool :=
  chainToB cs cs.length root c.id

/-- The row removal performed by `db.delete(comment)` under the
`cascade="all, delete-orphan"` declaration on `Comment.replies`
(models.py): the comment and every transitive descendant disappear. -/
def cascadeDeleteComments (cs : List Comment) (root : Nat) : List Comment :=
  cs.filter (fun c => !inSubtreeB cs root c)

/-- Number of transitive descendants (the reply subtree, excluding the
comment itself) of comment id `root`. -/
def subtreeSize (cs : List Comment) (root : Nat) : Nat :=
  (cs.filter (fun c => inSubtreeB cs root c && c.id != root)).length

/-- crud.delete_comment: fetch by id; when present,
`db.delete(db_comment)` (cascading to the reply subtree); when absent do
nothing. -/
def crud_delete_comment (db : DB) (comment_id : Nat) : DB :=
  match get_comment db comment_id with
  | some _ => { db with comments := cascadeDeleteComments db.comments comment_id }
  | none => db

/-- main.delete_comment route: 404 when the comment does not exist, 403
when `comment.user_id != current_user.id`, otherwise
crud.delete_comment and `{"message": "success"}`. -/
def delete_comment_route (db : DB) (comment_id : Nat) (current_user : Nat) :
    DB × Except ApiError String :=
  match get_comment db comment_id with
  | none => (db, .error notFoundComment)
  | some c =>
    if c.user_id != current_user then (db, .error forbiddenComment)
    else (crud_delete_comment db comment_id, .ok "success")

/-- crud.create_nested_comment (also the body of the
main.add_nested_comment route, which surfaces the `ValueError` as a 400):
fetch the parent comment; absent raises; otherwise insert a new comment
whose `movie_id` is `parent_comment.movie_id` — the payload carries no
movie id at all — and whose `parent_comment_id` is the parent's id. -/
def create_nested_comment (db : DB) (comment : CommentCreate)
    (parent_comment_id : Nat) (user_id : Nat) : DB × Except ApiError Comment :=
  match db.comments.find? (fun c => c.id == parent_comment_id) with
  | none => (db, .error badRequestParent)
  | some parent =>
    let db_comment : Comment :=
      { id := db.nextCommentId
        comment_text := comment.comment_text
        movie_id := parent.movie_id
        user_id := user_id
        parent_comment_id := some parent_comment_id }
    ({ db with
        comments := db.comments ++ [db_comment]
        nextCommentId := db.nextCommentId + 1 },
     .ok db_comment)

/-- A comment tree: a comment together with its (recursively loaded)
replies, as serialized by `schema.Comment` with its recursive `replies`
field. -/
inductive CTree where
  | node (c : Comment) (replies : List CTree)

/-- The comment at the root of a tree. -/
def CTree.root : CTree → Comment
  | .node c _ => c

/-- Recursive loading of the reply subtree of a comment (the per-node
fan-out query pattern of crud.py: `joinedload` for the first level and
lazy loads during serialization for the deeper ones), with fuel making
the recursion manifestly terminating; `fuel = cs.length` suffices on an
acyclic table. -/
def buildTree (cs : List Comment) : Nat → Comment → CTree
  | 0, c => .node c []
  | fuel+1, c => .node c ((childrenOf cs c.id).map (buildTree cs fuel))

/-- The root comments of movie `mid`:
`filter(Comment.movie_id == mid, Comment.parent_comment_id == None)`. -/
def rootComments (cs : List Comment) (mid : Nat) : List Comment :=
  cs.filter (fun c => c.movie_id == mid && c.parent_comment_id == none)

/-- The list of trees returned by a successful crud.get_comments:
pagination (`offset skip`, `limit`) applied to the root comments, each
then carrying its fully loaded reply subtree. -/
def gcTrees (db : DB) (movie_id skip limit : Nat) : List CTree :=
  (((rootComments db.comments movie_id).drop skip).take limit).map
    (buildTree db.comments db.comments.length)

/-- crud.get_comments (the main.get_comments route returns its result
unchanged): 404 when the movie does not exist; otherwise the paginated
root comments, each populated with its replies. -/
def get_comments (db : DB) (movie_id skip limit : Nat) : Except ApiError (List CTree) :=
  match db.movies.find? (fun m => m.id == movie_id) with
  | none => .error notFoundMovie
  | some _ => .ok (gcTrees db movie_id skip limit)

/- ### Ratings (schema.py / crud.py / main.py) -/

/-- schema.RatingBase.check_rating: `if value < 1 or value > 10: raise
ValueError('Rating must be between 1 and 10')`; runs at request parsing
time, before the route handler (and hence before any write). -/
def check_rating (value : Int) : Except ApiError Int :=
  if value < 1 ∨ value > 10 then .error ratingOutOfRange else .ok value

/-- crud.create_rating: insert a new `ratings` row. -/
def crud_create_rating (db : DB) (value : Int) (movie_id user_id : Nat) : DB × Rating :=
  let r : Rating :=
    { id := db.nextRatingId, rating := value, movie_id := movie_id, user_id := user_id }
  ({ db with ratings := db.ratings ++ [r], nextRatingId := db.nextRatingId + 1 }, r)

/-- The main.add_rating route including the pydantic parse of its body:
validation first (422, no write), then the movie-existence check (404),
then crud.create_rating. -/
def add_rating_route (db : DB) (movie_id : Nat) (value : Int) (user : Nat) :
    DB × Except ApiError Rating :=
  match check_rating value with
  | .error e => (db, .error e)
  | .ok v =>
    match db.movies.find? (fun m => m.id == movie_id) with
    | none => (db, .error notFoundMovie)
    | some _ =>
      let res := crud_create_rating db v movie_id user
      (res.1, .ok res.2)

/-- The values of all ratings stored for movie `mid`. -/
def ratingValues (db : DB) (mid : Nat) : List Int :=
  (db.ratings.filter (fun r => r.movie_id == mid)).map (fun r => r.rating)

/-- crud.get_average_rating:
`query(func.avg(Rating.rating)).filter(Rating.movie_id == movie_id).scalar()` —
SQL `AVG` of the matching values, `NULL` (here `none`) when no row
matches, embedded as the exact rational mean. -/
def crud_get_average_rating (db : DB) (movie_id : Nat) : Option ℚ :=
  match ratingValues db movie_id with
  | [] => none
  | v :: vs => some ((((v :: vs).sum : Int) : ℚ) / ((v :: vs).length : ℚ))

/-- Response body of the average-rating route (schema.AverageRating). -/
structure AverageRating where
  average_rating : ℚ
deriving DecidableEq, Repr

/-- main.get_average_rating route: take the aggregate; `None` is
normalized to `0.0`; always answers 200 — the route performs no
movie-existence check. -/
def average_rating_route (db : DB) (movie_id : Nat) : Except ApiError AverageRating :=
  match crud_get_average_rating db movie_id with
  | none => .ok ⟨0⟩
  | some a => .ok ⟨a⟩

/- ### Well-formedness predicates used as hypotheses -/

/-- The reply invariant of the comments table: every comment with a
parent has its parent row present, and with the same `movie_id`. -/
def parentInvB (cs : List Comment) : Bool :=
  cs.all (fun c =>
    match c.parent_comment_id with
    | none => true
    | some pid => cs.any (fun p => p.id == pid && p.movie_id == c.movie_id))

/-- Acyclicity by construction (autoincrement ids): a reply's parent row
was created before it, so the parent id is strictly smaller. -/
def acycB (cs : List Comment) : Bool :=
  cs.all (fun c =>
    match c.parent_comment_id with
    | none => true
    | some p => p < c.id)

mutual

/-- Is every node of the tree carrying exactly the direct replies
(`childrenOf`) present in the table?  I.e. the tree is the full subtree
of its root. -/
def completeB (cs : List Comment) : CTree → Bool
  | .node c reps => (reps.map CTree.root == childrenOf cs c.id) && completeListB cs reps

/-- `completeB` on every tree of a list. -/
def completeListB (cs : List Comment) : List CTree → Bool
  | [] => true
  | t :: ts => completeB cs t && completeListB cs ts

end

/- ### Helper lemmas -/

/-- A successful primary-key lookup returns a member with the looked-up id. -/
theorem find?_comment_id {cs : List Comment} {pid : Nat} {p : Comment}
    (h : cs.find? (fun c => c.id == pid) = some p) : p ∈ cs ∧ p.id = pid := by
  refine ⟨List.mem_of_find?_eq_some h, ?_⟩
  have hp := List.find?_some h
  simpa using hp

/-- `parentInvB` unfolded to its propositional form. -/
theorem parentInvB_iff (cs : List Comment) :
    parentInvB cs = true ↔
      ∀ c ∈ cs, ∀ pid, c.parent_comment_id = some pid →
        ∃ p ∈ cs, p.id = pid ∧ p.movie_id = c.movie_id := by
  unfold parentInvB
  rw [List.all_eq_true]
  constructor
  · intro h c hc pid hpid
    have hcc := h c hc
    rw [hpid, List.any_eq_true] at hcc
    obtain ⟨p, hp, hpp⟩ := hcc
    rw [Bool.and_eq_true, beq_iff_eq, beq_iff_eq] at hpp
    exact ⟨p, hp, hpp.1, hpp.2⟩
  · intro h c hc
    cases hpc : c.parent_comment_id with
    | none => rfl
    | some pid =>
      obtain ⟨p, hp, h1, h2⟩ := h c hc pid hpc
      rw [List.any_eq_true]
      exact ⟨p, hp, by rw [Bool.and_eq_true, beq_iff_eq, beq_iff_eq]; exact ⟨h1, h2⟩⟩

/- ### Concrete database states used by the witnesses -/

/-- A database with one movie (id 1, owner 4) and one root comment
(id 1, author 4) on it. -/
def dbOne : DB :=
  { movies := [⟨1, "t", "d", 0, 4⟩]
    comments := [⟨1, "hi", 1, 4, none⟩]
    ratings := []
    nextCommentId := 2
    nextRatingId := 1 }

/-- The empty database. -/
def dbEmpty : DB :=
  { movies := [], comments := [], ratings := [], nextCommentId := 1, nextRatingId := 1 }

/- ### Claim theorems -/

/-- C2: comment deletion is gated exactly by authorship — for an
existing comment the route answers `Forbidden` (403) iff the comment's
author differs from the actor, succeeds when they coincide, and answers
`NotFound` (404) when no comment with the id exists (main.py,
delete_comment). -/
theorem c2_delete_comment_authorship (db : DB) (comment_id actor : Nat) :
    (∀ c, get_comment db comment_id = some c →
      (((delete_comment_route db comment_id actor).2 = .error forbiddenComment) ↔
          c.user_id ≠ actor) ∧
      (c.user_id = actor →
          (delete_comment_route db comment_id actor).2 = .ok "success")) ∧
    (get_comment db comment_id = none →
      (delete_comment_route db comment_id actor).2 = .error notFoundComment) := by
  constructor
  · intro c hc
    unfold delete_comment_route
    rw [hc]
    by_cases h : c.user_id = actor
    · simp [h]
    · simp [h]
  · intro h
    unfold delete_comment_route
    rw [h]

/-- Witness for C2 on `dbOne`: actor 5 (not the author) is forbidden,
actor 4 (the author) succeeds, and a missing comment id yields 404. -/
theorem c2_witness :
    (delete_comment_route dbOne 1 5).2 = .error forbiddenComment ∧
    (delete_comment_route dbOne 1 4).2 = .ok "success" ∧
    (delete_comment_route dbOne 2 4).2 = .error notFoundComment :=
  ⟨((c2_delete_comment_authorship dbOne 1 5).1 ⟨1, "hi", 1, 4, none⟩ rfl).1.mpr (by decide),
   ((c2_delete_comment_authorship dbOne 1 4).1 ⟨1, "hi", 1, 4, none⟩ rfl).2 rfl,
   (c2_delete_comment_authorship dbOne 2 4).2 rfl⟩

/-- C5: a successful movie deletion leaves no comment and no rating with
that `movie_id` (the `cascade="all, delete-orphan"` of models.py), and
removes nothing belonging to other movies. -/
theorem c5_delete_movie_cascade (db : DB) (mid uid : Nat) (db2 : DB) (m : Movie)
    (h : crud_delete_movie db mid uid = (db2, some m)) :
    (db2.comments.filter (fun c => c.movie_id == mid)).length = 0 ∧
    (db2.ratings.filter (fun r => r.movie_id == mid)).length = 0 ∧
    (∀ c ∈ db.comments, c.movie_id ≠ mid → c ∈ db2.comments) ∧
    (∀ r ∈ db.ratings, r.movie_id ≠ mid → r ∈ db2.ratings) ∧
    (∀ mv ∈ db.movies, mv.id ≠ mid → mv ∈ db2.movies) := by
  unfold crud_delete_movie at h
  cases hg : crud_get_movie db mid (some uid) with
  | none => rw [hg] at h; simp at h
  | some movie =>
    rw [hg] at h
    have hdb : db2 = { db with
        movies := db.movies.filter (fun x => x.id != mid)
        comments := db.comments.filter (fun c => c.movie_id != mid)
        ratings := db.ratings.filter (fun r => r.movie_id != mid) } := by
      have := congrArg Prod.fst h
      exact this.symm
    subst hdb
    refine ⟨?_, ?_, ?_, ?_, ?_⟩
    · rw [List.length_eq_zero, List.filter_eq_nil_iff]
      intro a ha
      have := (List.mem_filter.mp ha).2
      simp at this ⊢
      exact this
    · rw [List.length_eq_zero, List.filter_eq_nil_iff]
      intro a ha
      have := (List.mem_filter.mp ha).2
      simp at this ⊢
      exact this
    · intro c hc hne
      exact List.mem_filter.mpr ⟨hc, by simpa using hne⟩
    · intro r hr hne
      exact List.mem_filter.mpr ⟨hr, by simpa using hne⟩
    · intro mv hmv hne
      exact List.mem_filter.mpr ⟨hmv, by simpa using hne⟩

/-- Witness for C5: deleting movie 1 of `dbOne` (owner 4) empties its
comments and keeps nothing else. -/
theorem c5_witness :
    ((crud_delete_movie dbOne 1 4).1.comments.filter (fun c => c.movie_id == 1)).length = 0 ∧
    ((crud_delete_movie dbOne 1 4).1.ratings.filter (fun r => r.movie_id == 1)).length = 0 :=
  ⟨(c5_delete_movie_cascade dbOne 1 4 (crud_delete_movie dbOne 1 4).1 ⟨1, "t", "d", 0, 4⟩ rfl).1,
   (c5_delete_movie_cascade dbOne 1 4 (crud_delete_movie dbOne 1 4).1 ⟨1, "t", "d", 0, 4⟩ rfl).2.1⟩

/-- C6: the average-rating route returns the exact arithmetic mean of
the stored values when at least one rating exists (the value `q`
returned satisfies `q * n = sum`), and exactly `0` when none exists —
always a 200 answer, the `None` aggregate being normalized at the
boundary (main.py, get_average_rating). -/
theorem c6_average_rating (db : DB) (mid : Nat) :
    (ratingValues db mid = [] → average_rating_route db mid = .ok ⟨0⟩) ∧
    (∀ v vs, ratingValues db mid = v :: vs →
      average_rating_route db mid =
          .ok ⟨(((v :: vs).sum : Int) : ℚ) / (((v :: vs).length : Nat) : ℚ)⟩ ∧
      ((((v :: vs).sum : Int) : ℚ) / (((v :: vs).length : Nat) : ℚ))
            * (((v :: vs).length : Nat) : ℚ)
          = (((v :: vs).sum : Int) : ℚ)) := by
  constructor
  · intro h
    unfold average_rating_route crud_get_average_rating
    rw [h]
  · intro v vs h
    constructor
    · unfold average_rating_route crud_get_average_rating
      rw [h]
    · have hb : (((v :: vs).length : Nat) : ℚ) ≠ 0 := by
        rw [Nat.cast_ne_zero]
        simp
      exact div_mul_cancel₀ _ hb

/-- Witness for C6: ratings `[5, 7, 8]` average to `20/3 = 6.666…`, and
a movie with no ratings averages to `0`. -/
theorem c6_witness :
    average_rating_route
        { dbOne with ratings := [⟨1, 5, 1, 4⟩, ⟨2, 7, 1, 4⟩, ⟨3, 8, 1, 4⟩] } 1 =
      .ok ⟨20 / 3⟩ ∧
    average_rating_route dbOne 1 = .ok ⟨0⟩ := by
  constructor
  · have h := ((c6_average_rating
        { dbOne with ratings := [⟨1, 5, 1, 4⟩, ⟨2, 7, 1, 4⟩, ⟨3, 8, 1, 4⟩] } 1).2
        5 [7, 8] rfl).1
    rw [h]
    norm_num
  · exact (c6_average_rating dbOne 1).1 rfl

/-- C7: the rating route rejects a value with the 422 validation error
iff it lies outside `[1, 10]`, the rejection happens before any write
(the database is unchanged), and an in-range value — the boundaries 1
and 10 included — persists exactly one new rating when the movie exists
(schema.RatingBase.check_rating, main.add_rating). -/
theorem c7_rating_bounds (db : DB) (mid : Nat) (v : Int) (actor : Nat) :
    (((add_rating_route db mid v actor).2 = .error ratingOutOfRange) ↔
        (v < 1 ∨ 10 < v)) ∧
    ((v < 1 ∨ 10 < v) → (add_rating_route db mid v actor).1 = db) ∧
    (∀ m, db.movies.find? (fun x => x.id == mid) = some m → 1 ≤ v → v ≤ 10 →
      (add_rating_route db mid v actor).2 =
          .ok { id := db.nextRatingId, rating := v, movie_id := mid, user_id := actor } ∧
      (add_rating_route db mid v actor).1.ratings =
          db.ratings ++
            [{ id := db.nextRatingId, rating := v, movie_id := mid, user_id := actor }]) := by
  by_cases hv : v < 1 ∨ 10 < v
  · refine ⟨⟨fun _ => hv, fun _ => ?_⟩, fun _ => ?_, fun m hm h1 h10 => ?_⟩
    · unfold add_rating_route check_rating
      rw [if_pos hv]
    · unfold add_rating_route check_rating
      rw [if_pos hv]
    · exact absurd hv (by omega)
  · unfold add_rating_route check_rating
    rw [if_neg hv]
    refine ⟨⟨?_, fun h => absurd h hv⟩, fun h => absurd h hv, fun m hm h1 h10 => ?_⟩
    · cases hfind : db.movies.find? (fun x => x.id == mid) with
      | none => intro h; simp [notFoundMovie, ratingOutOfRange] at h
      | some m => intro h; simp [crud_create_rating] at h
    · rw [hm]
      exact ⟨rfl, rfl⟩

/-- Witness for C7 on `dbOne` (movie 1 exists): 0 and 11 are rejected
with 422 and leave the store untouched; 1 and 10 are accepted and each
persists a rating row. -/
theorem c7_witness :
    ((add_rating_route dbOne 1 0 4).2 = .error ratingOutOfRange ∧
        (add_rating_route dbOne 1 0 4).1 = dbOne) ∧
    ((add_rating_route dbOne 1 11 4).2 = .error ratingOutOfRange ∧
        (add_rating_route dbOne 1 11 4).1 = dbOne) ∧
    (add_rating_route dbOne 1 1 4).2 = .ok ⟨1, 1, 1, 4⟩ ∧
    (add_rating_route dbOne 1 10 4).2 = .ok ⟨1, 10, 1, 4⟩ :=
  ⟨⟨(c7_rating_bounds dbOne 1 0 4).1.mpr (by decide),
    (c7_rating_bounds dbOne 1 0 4).2.1 (by decide)⟩,
   ⟨(c7_rating_bounds dbOne 1 11 4).1.mpr (by decide),
    (c7_rating_bounds dbOne 1 11 4).2.1 (by decide)⟩,
   ((c7_rating_bounds dbOne 1 1 4).2.2 ⟨1, "t", "d", 0, 4⟩ rfl (by decide) (by decide)).1,
   ((c7_rating_bounds dbOne 1 10 4).2.2 ⟨1, "t", "d", 0, 4⟩ rfl (by decide) (by decide)).1⟩

/-- C8 (as stated): a counterexample. On the empty database, asking for
a reply to the nonexistent parent comment 1 fails with HTTP **400**
(`ValueError("Parent comment does not exist")` mapped by
main.add_nested_comment to `HTTP_400_BAD_REQUEST`) — not with the 404
status this application uses for its `NotFound` failures ("Movie not
found" / "Comment not found") — though indeed nothing is persisted. -/
theorem c8_counterexample :
    errStatus (create_nested_comment dbEmpty ⟨"hi"⟩ 1 7).2 = some 400 ∧
    some (400 : Nat) ≠ some 404 ∧
    (create_nested_comment dbEmpty ⟨"hi"⟩ 1 7).2 = .error badRequestParent ∧
    (create_nested_comment dbEmpty ⟨"hi"⟩ 1 7).1 = dbEmpty :=
  ⟨rfl, by decide, rfl, rfl⟩

/-- C8 (amended): when the parent comment does not exist, create_reply
fails — with the 400 Bad Request error carrying the detail
"Parent comment does not exist", not with a 404 NotFound — and no
comment is persisted (the database is unchanged). -/
theorem c8_missing_parent (db : DB) (payload : CommentCreate) (pid uid : Nat)
    (h : db.comments.find? (fun c => c.id == pid) = none) :
    (create_nested_comment db payload pid uid).2 = .error badRequestParent ∧
    (create_nested_comment db payload pid uid).1 = db := by
  unfold create_nested_comment
  rw [h]
  exact ⟨rfl, rfl⟩

/-- Witness for C8 (amended) on `dbOne`: comment 2 does not exist. -/
theorem c8_witness :
    (create_nested_comment dbOne ⟨"hi"⟩ 2 4).2 = .error badRequestParent ∧
    (create_nested_comment dbOne ⟨"hi"⟩ 2 4).1 = dbOne :=
  c8_missing_parent dbOne ⟨"hi"⟩ 2 4 rfl

/-- C10: the average-rating route never checks movie existence — its
answer does not depend on the `movies` table at all, it never fails (no
404), and whenever no rating is stored for the requested id (in
particular for any id referencing no movie) it answers `0`, exactly as
for an existing movie with zero ratings. -/
theorem c10_average_ignores_movie_existence
    (movies1 movies2 : List Movie) (cs : List Comment) (rs : List Rating)
    (n1 n2 k1 k2 mid : Nat) :
    average_rating_route ⟨movies1, cs, rs, n1, k1⟩ mid
        = average_rating_route ⟨movies2, cs, rs, n2, k2⟩ mid ∧
    (∀ db : DB, errStatus (average_rating_route db mid) = none) ∧
    (∀ db : DB, ratingValues db mid = [] → average_rating_route db mid = .ok ⟨0⟩) := by
  refine ⟨rfl, ?_, ?_⟩
  · intro db
    unfold average_rating_route
    cases crud_get_average_rating db mid with
    | none => rfl
    | some a => rfl
  · intro db h
    unfold average_rating_route crud_get_average_rating
    rw [h]

/-- Witness for C10: movie 9 exists in no variant of the store, yet the
route answers `0` for it, identically with and without any movies. -/
theorem c10_witness :
    average_rating_route ⟨[], dbOne.comments, dbOne.ratings, 2, 1⟩ 9
        = average_rating_route ⟨dbOne.movies, dbOne.comments, dbOne.ratings, 2, 1⟩ 9 ∧
    average_rating_route dbOne 9 = .ok ⟨0⟩ :=
  ⟨(c10_average_ignores_movie_existence [] dbOne.movies dbOne.comments dbOne.ratings
      2 2 1 1 9).1,
   (c10_average_ignores_movie_existence [] [] dbOne.comments dbOne.ratings 2 2 1 1 9).2.2
      dbOne rfl⟩

/-- C1: a reply created by crud.create_nested_comment carries
`parent_comment_id = parent_comment_id` and its `movie_id` is copied
from the parent row (the `CommentCreate` payload has no movie-id field a
caller could supply), so creating a reply preserves the invariant that
every comment with a parent has its parent's `movie_id`. -/
theorem c1_reply_inherits_parent_movie (db : DB) (payload : CommentCreate)
    (pid uid : Nat) (c : Comment)
    (hok : (create_nested_comment db payload pid uid).2 = Except.ok c)
    (hinv : parentInvB db.comments = true) :
    c.parent_comment_id = some pid ∧
    (∃ p ∈ db.comments, p.id = pid ∧ c.movie_id = p.movie_id) ∧
    parentInvB (create_nested_comment db payload pid uid).1.comments = true := by
  unfold create_nested_comment at hok ⊢
  cases hfind : db.comments.find? (fun x => x.id == pid) with
  | none => rw [hfind] at hok; simp at hok
  | some p =>
    rw [hfind] at hok
    simp only [Except.ok.injEq] at hok
    obtain ⟨hp, hpid⟩ := find?_comment_id hfind
    refine ⟨?_, ⟨p, hp, hpid, ?_⟩, ?_⟩
    · rw [← hok]
    · rw [← hok]
    · rw [parentInvB_iff]
      intro x hx qid hq
      simp only [List.mem_append, List.mem_singleton] at hx
      cases hx with
      | inl hx =>
        obtain ⟨q, hqm, hq1, hq2⟩ := (parentInvB_iff db.comments).mp hinv x hx qid hq
        exact ⟨q, List.mem_append_left _ hqm, hq1, hq2⟩
      | inr hx =>
        subst hx
        simp only at hq
        have : qid = pid := by
          have := hq
          injection this with h2
          exact h2.symm
        subst this
        exact ⟨p, List.mem_append_left _ hp, hpid, rfl⟩

/-- Witness for C1 on `dbOne`: the reply to comment 1 (which sits on
movie 1) is stored with `parent_comment_id = 1` and the invariant keeps
holding afterwards. -/
theorem c1_witness :
    (⟨2, "yes", 1, 9, some 1⟩ : Comment).parent_comment_id = some 1 ∧
    (∃ p ∈ dbOne.comments, p.id = 1 ∧
        (⟨2, "yes", 1, 9, some 1⟩ : Comment).movie_id = p.movie_id) ∧
    parentInvB (create_nested_comment dbOne ⟨"yes"⟩ 1 9).1.comments = true :=
  c1_reply_inherits_parent_movie dbOne ⟨"yes"⟩ 1 9 ⟨2, "yes", 1, 9, some 1⟩ rfl (by decide)

/-- C4: for an actor (a real user, so with nonzero id) and a movie id,
the update and delete routes answer the very same
404 "Movie not found" both when the movie exists but belongs to someone
else and when no movie with that id exists, leaving the store untouched
in all four cases — ownership is never revealed by a 403
(main.update_movie, main.delete_movie, crud.delete_movie). -/
theorem c4_movie_notfound_hides_ownership (db : DB) (mid : Nat)
    (payload : MovieUpdate) (actor : Nat) (m : Movie)
    (hactor : actor ≠ 0)
    (hnodup : (db.movies.map Movie.id).Nodup)
    (hm : m ∈ db.movies) (hid : m.id = mid) (hown : m.user_id ≠ actor) :
    (update_movie_route db mid payload actor).2 = .error notFoundMovie ∧
    (update_movie_route db mid payload actor).1 = db ∧
    (delete_movie_route db mid actor).2 = .error notFoundMovie ∧
    (delete_movie_route db mid actor).1 = db ∧
    (∀ mid2, (∀ x ∈ db.movies, x.id ≠ mid2) →
      (update_movie_route db mid2 payload actor).2 = .error notFoundMovie ∧
      (update_movie_route db mid2 payload actor).1 = db ∧
      (delete_movie_route db mid2 actor).2 = .error notFoundMovie ∧
      (delete_movie_route db mid2 actor).1 = db) := by
  have hinj : ∀ x ∈ db.movies, x.id = mid → x = m := by
    intro x hx hxid
    exact List.inj_on_of_nodup_map hnodup hx hm (by rw [hxid, hid])
  have hupd : db.movies.find? (fun x => x.id == mid && x.user_id == actor) = none := by
    rw [List.find?_eq_none]
    intro x hx
    simp only [Bool.and_eq_true, beq_iff_eq, not_and]
    intro hxid
    rw [hinj x hx hxid]
    exact hown
  have htru : truthy (some actor) = true := by simp [truthy, hactor]
  have hdel : crud_get_movie db mid (some actor) = none := by
    unfold crud_get_movie
    rw [List.find?_eq_none]
    intro x hx
    rw [htru]
    simp only [Bool.not_true, Bool.false_or, Bool.and_eq_true, beq_iff_eq, not_and,
      Option.getD_some]
    intro hxid
    rw [hinj x hx hxid]
    exact hown
  refine ⟨?_, ?_, ?_, ?_, ?_⟩
  · unfold update_movie_route; rw [hupd]
  · unfold update_movie_route; rw [hupd]
  · unfold delete_movie_route crud_delete_movie; rw [hdel]
  · unfold delete_movie_route crud_delete_movie; rw [hdel]
  · intro mid2 habs
    have hupd2 : db.movies.find? (fun x => x.id == mid2 && x.user_id == actor) = none := by
      rw [List.find?_eq_none]
      intro x hx
      simp only [Bool.and_eq_true, beq_iff_eq, not_and]
      intro hxid
      exact absurd hxid (habs x hx)
    have hdel2 : crud_get_movie db mid2 (some actor) = none := by
      unfold crud_get_movie
      rw [List.find?_eq_none]
      intro x hx
      rw [htru]
      simp only [Bool.not_true, Bool.false_or, Bool.and_eq_true, beq_iff_eq, not_and,
        Option.getD_some]
      intro hxid
      exact absurd hxid (habs x hx)
    refine ⟨?_, ?_, ?_, ?_⟩
    · unfold update_movie_route; rw [hupd2]
    · unfold update_movie_route; rw [hupd2]
    · unfold delete_movie_route crud_delete_movie; rw [hdel2]
    · unfold delete_movie_route crud_delete_movie; rw [hdel2]

/-- Witness for C4 on `dbOne`: actor 5 does not own movie 1, and movie
99 does not exist; both runs of both routes answer the identical
404 "Movie not found" and change nothing. -/
theorem c4_witness :
    (update_movie_route dbOne 1 ⟨"x", none, none⟩ 5).2 = .error notFoundMovie ∧
    (delete_movie_route dbOne 1 5).2 = .error notFoundMovie ∧
    (update_movie_route dbOne 99 ⟨"x", none, none⟩ 5).2 = .error notFoundMovie ∧
    (delete_movie_route dbOne 99 5).2 = .error notFoundMovie := by
  have h := c4_movie_notfound_hides_ownership dbOne 1 ⟨"x", none, none⟩ 5
    ⟨1, "t", "d", 0, 4⟩ (by decide) (by decide) (by decide) rfl (by decide)
  have h2 := h.2.2.2.2 99 (by decide)
  exact ⟨h.1, h.2.2.1, h2.1, h2.2.2.1⟩

/- ### Counting lemmas for the deletion cascade -/

/-- Removing the elements satisfying `p` removes exactly
`(l.filter p).length` elements. -/
theorem length_filter_not {α : Type} (l : List α) (p : α → Bool) :
    (l.filter (fun a => !p a)).length = l.length - (l.filter p).length := by
  induction l with
  | nil => rfl
  | cons x xs ih =>
    have hle := List.length_filter_le p xs
    by_cases h : p x = true
    · simp [List.filter_cons, h, ih]
    · simp [List.filter_cons, h, ih]
      omega

/-- A filter splits along a second predicate. -/
theorem length_filter_split {α : Type} (l : List α) (p q : α → Bool) :
    (l.filter p).length =
      (l.filter (fun a => p a && q a)).length +
        (l.filter (fun a => p a && !q a)).length := by
  induction l with
  | nil => rfl
  | cons x xs ih =>
    by_cases hp : p x = true <;> by_cases hq : q x = true <;>
      simp [List.filter_cons, hp, hq, ih] <;> omega

/-- A comment whose id is the root of a subtree belongs to it. -/
theorem inSubtree_self (cs : List Comment) (root : Nat) (c : Comment) (h : c.id = root) :
    inSubtreeB cs root c = true := by
  unfold inSubtreeB
  cases cs.length with
  | zero => simp [chainToB, h]
  | succ n => simp [chainToB, h]

/-- On a table with distinct primary keys, exactly one row carries a
present id. -/
theorem length_filter_id_eq (cs : List Comment) (root : Nat) (c : Comment)
    (hm : c ∈ cs) (hc : c.id = root) (hnodup : (cs.map Comment.id).Nodup) :
    (cs.filter (fun x => x.id == root)).length = 1 := by
  induction cs with
  | nil => cases hm
  | cons y ys ih =>
    rw [List.map_cons, List.nodup_cons] at hnodup
    obtain ⟨hy, hys⟩ := hnodup
    rcases List.mem_cons.mp hm with rfl | hmem
    · rw [List.filter_cons, if_pos (show (c.id == root) = true by simp [hc]),
        List.length_cons]
      have hnil : ys.filter (fun x => x.id == root) = [] := by
        rw [List.filter_eq_nil_iff]
        intro a ha
        simp only [beq_iff_eq]
        intro haid
        refine hy ?_
        rw [show c.id = a.id by rw [hc, haid]]
        exact List.mem_map_of_mem Comment.id ha
      rw [hnil]
      rfl
    · have hyroot : ¬ (y.id == root) = true := by
        simp only [beq_iff_eq]
        intro hcon
        refine hy ?_
        rw [hcon, ← hc]
        exact List.mem_map_of_mem Comment.id hmem
      rw [List.filter_cons, if_neg hyroot]
      exact ih hmem hys

/-- Inside the subtree predicate, restricting to the root id is the same
as filtering on the root id alone. -/
theorem filter_sub_and_id (cs : List Comment) (root : Nat) :
    cs.filter (fun x => inSubtreeB cs root x && x.id == root) =
      cs.filter (fun x => x.id == root) := by
  apply List.filter_congr
  intro x hx
  by_cases h : x.id = root
  · rw [inSubtree_self cs root x h, Bool.true_and]
  · simp [h]

/-- The deleted set of a cascade rooted at a present comment has size
`1 + subtreeSize`. -/
theorem length_filter_inSubtree (cs : List Comment) (root : Nat) (c : Comment)
    (hm : c ∈ cs) (hc : c.id = root) (hnodup : (cs.map Comment.id).Nodup) :
    (cs.filter (fun x => inSubtreeB cs root x)).length = 1 + subtreeSize cs root := by
  rw [length_filter_split cs (fun x => inSubtreeB cs root x) (fun x => x.id == root)]
  rw [show cs.filter (fun x => inSubtreeB cs root x && x.id == root) =
        cs.filter (fun x => x.id == root) from filter_sub_and_id cs root]
  rw [length_filter_id_eq cs root c hm hc hnodup]
  rfl

/-- Along the `parent_comment_id` chain, `movie_id` is constant when the
reply invariant holds: any comment whose chain reaches `c0` has
`c0.movie_id`. -/
theorem chain_movie_eq (cs : List Comment) (hnodup : (cs.map Comment.id).Nodup)
    (hinv : parentInvB cs = true) (c0 : Comment) (hc0 : c0 ∈ cs) :
    ∀ fuel, ∀ x ∈ cs, chainToB cs fuel c0.id x.id = true → x.movie_id = c0.movie_id := by
  intro fuel
  induction fuel with
  | zero =>
    intro x hx h
    have hxid : x.id = c0.id := by simpa [chainToB] using h
    rw [List.inj_on_of_nodup_map hnodup hx hc0 hxid]
  | succ n ih =>
    intro x hx h
    simp only [chainToB] at h
    rw [Bool.or_eq_true] at h
    cases h with
    | inl h =>
      have hxid : x.id = c0.id := by simpa using h
      rw [List.inj_on_of_nodup_map hnodup hx hc0 hxid]
    | inr h =>
      cases hfind : cs.find? (fun q => q.id == x.id) with
      | none => rw [hfind] at h; simp at h
      | some y =>
        obtain ⟨hym, hyid⟩ := find?_comment_id hfind
        have hyx : y = x := List.inj_on_of_nodup_map hnodup hym hx hyid
        subst hyx
        simp only [hfind] at h
        cases hp : y.parent_comment_id with
        | none => simp only [hp] at h; simp at h
        | some pid =>
          simp only [hp] at h
          obtain ⟨q, hq, hq1, hq2⟩ := (parentInvB_iff cs).mp hinv y hx pid hp
          have hqc : chainToB cs n c0.id q.id = true := by rw [hq1]; exact h
          have hqm := ih q hq hqc
          rw [← hq2]
          exact hqm

/-- A movie with a comment thread: root comment 1 carries reply 2,
which carries reply 3; root comment 4 is unrelated. -/
def dbThread : DB :=
  { movies := [⟨1, "t", "d", 0, 4⟩]
    comments := [⟨1, "a1", 1, 4, none⟩, ⟨2, "b2", 1, 5, some 1⟩,
                 ⟨3, "c3", 1, 6, some 2⟩, ⟨4, "d4", 1, 7, none⟩]
    ratings := []
    nextCommentId := 5
    nextRatingId := 1 }

/-- C3: deleting an existing comment removes it together with its whole
reply subtree and nothing else — the comment count drops by exactly
`1 + subtreeSize` (transitive descendants), every comment outside the
subtree survives, nothing is added, and the count restricted to the
comment's movie drops by the same amount (models.py `Comment.replies`
cascade, crud.delete_comment). -/
theorem c3_delete_comment_subtree (db : DB) (cid : Nat) (c : Comment)
    (hc : get_comment db cid = some c)
    (hnodup : (db.comments.map Comment.id).Nodup)
    (hinv : parentInvB db.comments = true) :
    (crud_delete_comment db cid).comments.length
        = db.comments.length - (1 + subtreeSize db.comments cid) ∧
    (∀ x ∈ db.comments, inSubtreeB db.comments cid x = false →
        x ∈ (crud_delete_comment db cid).comments) ∧
    (∀ x ∈ (crud_delete_comment db cid).comments, x ∈ db.comments) ∧
    ((crud_delete_comment db cid).comments.filter
          (fun x => x.movie_id == c.movie_id)).length
        = (db.comments.filter (fun x => x.movie_id == c.movie_id)).length
            - (1 + subtreeSize db.comments cid) := by
  obtain ⟨hcm, hcid⟩ := find?_comment_id hc
  have hdel : (crud_delete_comment db cid).comments
      = db.comments.filter (fun x => !inSubtreeB db.comments cid x) := by
    unfold crud_delete_comment cascadeDeleteComments
    simp only [hc]
  have hcount := length_filter_inSubtree db.comments cid c hcm hcid hnodup
  refine ⟨?_, ?_, ?_, ?_⟩
  · rw [hdel, length_filter_not, hcount]
  · intro x hx hfalse
    rw [hdel]
    refine List.mem_filter.mpr ⟨hx, ?_⟩
    rw [hfalse]
    rfl
  · intro x hx
    rw [hdel] at hx
    exact (List.mem_filter.mp hx).1
  · rw [hdel, List.filter_filter]
    have hsplit := length_filter_split db.comments
      (fun x => x.movie_id == c.movie_id) (fun x => inSubtreeB db.comments cid x)
    have hcong : db.comments.filter
          (fun x => (x.movie_id == c.movie_id) && inSubtreeB db.comments cid x)
        = db.comments.filter (fun x => inSubtreeB db.comments cid x) := by
      apply List.filter_congr
      intro x hx
      by_cases hsx : inSubtreeB db.comments cid x = true
      · rw [hsx, Bool.and_true]
        have hmv : x.movie_id = c.movie_id := by
          apply chain_movie_eq db.comments hnodup hinv c hcm db.comments.length x hx
          rw [hcid]
          exact hsx
        simp [hmv]
      · have hsx2 : inSubtreeB db.comments cid x = false := by
          simpa using hsx
        rw [hsx2, Bool.and_false]
    rw [hcong, hcount] at hsplit
    omega

/-- Witness for C3 on `dbThread`: deleting comment 1 removes it and its
two transitive replies (subtree size 2), while comment 4 survives; the
movie's comment count drops from 4 to 1. -/
theorem c3_witness :
    ((crud_delete_comment dbThread 1).comments.length
        = dbThread.comments.length - (1 + subtreeSize dbThread.comments 1)) ∧
    (⟨4, "d4", 1, 7, none⟩ : Comment) ∈ (crud_delete_comment dbThread 1).comments ∧
    subtreeSize dbThread.comments 1 = 2 ∧
    (crud_delete_comment dbThread 1).comments.length = 1 :=
  have h := c3_delete_comment_subtree dbThread 1 ⟨1, "a1", 1, 4, none⟩ rfl
    (by decide) (by decide)
  ⟨h.1, h.2.1 ⟨4, "d4", 1, 7, none⟩ (by decide) (by decide), by decide, by decide⟩

/- ### Tree-loading lemmas -/

/-- The root of a loaded tree is the comment it was loaded from. -/
theorem root_buildTree (cs : List Comment) (fuel : Nat) (c : Comment) :
    (buildTree cs fuel c).root = c := by
  cases fuel <;> rfl

/-- Mapping tree loading and then taking roots is the identity. -/
theorem map_root_map_buildTree (cs : List Comment) (fuel : Nat) (l : List Comment) :
    (l.map (buildTree cs fuel)).map CTree.root = l := by
  induction l with
  | nil => rfl
  | cons x xs ih => simp [root_buildTree, ih]

/-- `completeListB` is `all completeB`. -/
theorem completeListB_eq_all (cs : List Comment) (ts : List CTree) :
    completeListB cs ts = ts.all (completeB cs) := by
  induction ts with
  | nil => rfl
  | cons t ts ih => simp [completeListB, List.all_cons, ih]

/-- Filtering with a pointwise-weaker predicate keeps at least as many
elements. -/
theorem length_filter_mono {α : Type} (l : List α) (p q : α → Bool)
    (h : ∀ a ∈ l, p a = true → q a = true) :
    (l.filter p).length ≤ (l.filter q).length := by
  induction l with
  | nil => exact Nat.le_refl _
  | cons x xs ih =>
    have ih2 := ih (fun a ha => h a (List.mem_cons_of_mem x ha))
    by_cases hp : p x = true
    · rw [List.filter_cons, if_pos hp, List.filter_cons,
        if_pos (h x (List.mem_cons_self x xs) hp), List.length_cons, List.length_cons]
      exact Nat.succ_le_succ ih2
    · rw [List.filter_cons, if_neg hp]
      by_cases hq : q x = true
      · rw [List.filter_cons, if_pos hq, List.length_cons]
        exact Nat.le_succ_of_le ih2
      · rw [List.filter_cons, if_neg hq]
        exact ih2

/-- …and strictly fewer when some element separates the predicates. -/
theorem length_filter_lt {α : Type} (l : List α) (p q : α → Bool) (x : α)
    (hx : x ∈ l) (hpq : ∀ a ∈ l, p a = true → q a = true)
    (hqx : q x = true) (hpx : p x = false) :
    (l.filter p).length < (l.filter q).length := by
  obtain ⟨s, t, rfl⟩ := List.append_of_mem hx
  rw [List.filter_append, List.filter_append, List.length_append, List.length_append,
    List.filter_cons, if_neg (by simp [hpx]), List.filter_cons, if_pos hqx,
    List.length_cons]
  have h1 : (s.filter p).length ≤ (s.filter q).length :=
    length_filter_mono s p q (fun a ha => hpq a (by simp [ha]))
  have h2 : (t.filter p).length ≤ (t.filter q).length :=
    length_filter_mono t p q (fun a ha => hpq a (by simp [ha]))
  omega

/-- On an acyclic comment table (each parent id strictly below its
child's id — autoincrement order), recursive tree loading with enough
fuel attaches, at every node, exactly the direct replies present in the
table: the loaded tree is the full subtree. -/
theorem buildTree_complete (cs : List Comment)
    (hacyc : ∀ c ∈ cs, ∀ p, c.parent_comment_id = some p → p < c.id) :
    ∀ fuel c, (cs.filter (fun x => decide (c.id < x.id))).length ≤ fuel →
      completeB cs (buildTree cs fuel c) = true := by
  intro fuel
  induction fuel with
  | zero =>
    intro c hf
    have hnil : childrenOf cs c.id = [] := by
      unfold childrenOf
      rw [List.filter_eq_nil_iff]
      intro a ha hpa
      have hpa2 : a.parent_comment_id = some c.id := by simpa using hpa
      have hlt : c.id < a.id := hacyc a ha c.id hpa2
      have hpos : 0 < (cs.filter (fun x => decide (c.id < x.id))).length :=
        List.length_pos_of_mem (List.mem_filter.mpr ⟨ha, by simpa⟩)
      omega
    simp [buildTree, completeB, completeListB, hnil]
  | succ n ih =>
    intro c hf
    show completeB cs (.node c ((childrenOf cs c.id).map (buildTree cs n))) = true
    unfold completeB
    rw [Bool.and_eq_true]
    constructor
    · rw [map_root_map_buildTree]
      exact beq_self_eq_true _
    · rw [completeListB_eq_all, List.all_eq_true]
      intro t ht
      obtain ⟨x, hxmem, rfl⟩ := List.mem_map.mp ht
      apply ih x
      have hxcs : x ∈ cs := (List.mem_filter.mp hxmem).1
      have hxp : x.parent_comment_id = some c.id := by
        have := (List.mem_filter.mp hxmem).2
        simpa using this
      have hcx : c.id < x.id := hacyc x hxcs c.id hxp
      have hlt := length_filter_lt cs (fun a => decide (x.id < a.id))
        (fun a => decide (c.id < a.id)) x hxcs
        (fun a ha hxa => by simp only [decide_eq_true_eq] at hxa ⊢; omega)
        (by simpa) (by simp)
      omega

/-- A movie with three root comments (ids 1, 2, 3) and a nested thread
below the first (reply 4 on comment 1, reply 5 on reply 4). -/
def dbRoots : DB :=
  { movies := [⟨1, "t", "d", 0, 4⟩]
    comments := [⟨1, "r1", 1, 4, none⟩, ⟨2, "r2", 1, 4, none⟩, ⟨3, "r3", 1, 4, none⟩,
                 ⟨4, "n4", 1, 5, some 1⟩, ⟨5, "n5", 1, 6, some 4⟩]
    ratings := []
    nextCommentId := 6
    nextRatingId := 1 }

/-- C9: listing a movie's comments fails with 404 "Movie not found" when
the movie does not exist; otherwise it returns exactly the root comments
(parent null, that movie) with `offset`/`limit` pagination applied to
those roots alone — the returned roots are
`take limit (drop skip roots)`, so the count is
`min limit (#roots - skip)` regardless of any replies — and every
returned root carries its complete reply subtree
(crud.get_comments, main.get_comments). -/
theorem c9_root_comments_pagination (db : DB) (mid skip limit : Nat)
    (hacyc : acycB db.comments = true) :
    (db.movies.find? (fun m => m.id == mid) = none →
      get_comments db mid skip limit = .error notFoundMovie) ∧
    (∀ m, db.movies.find? (fun x => x.id == mid) = some m →
      get_comments db mid skip limit = .ok (gcTrees db mid skip limit) ∧
      (gcTrees db mid skip limit).map CTree.root
          = ((rootComments db.comments mid).drop skip).take limit ∧
      (gcTrees db mid skip limit).length
          = min limit ((rootComments db.comments mid).length - skip) ∧
      (∀ t ∈ gcTrees db mid skip limit,
          t.root.parent_comment_id = none ∧ t.root.movie_id = mid ∧
          completeB db.comments t = true)) := by
  have hacyc2 : ∀ c ∈ db.comments, ∀ p, c.parent_comment_id = some p → p < c.id := by
    intro c hc p hp
    unfold acycB at hacyc
    rw [List.all_eq_true] at hacyc
    have := hacyc c hc
    rw [hp] at this
    simpa using this
  constructor
  · intro h
    unfold get_comments
    rw [h]
  · intro m hm
    refine ⟨?_, map_root_map_buildTree _ _ _, ?_, ?_⟩
    · unfold get_comments
      rw [hm]
    · unfold gcTrees
      rw [List.length_map, List.length_take, List.length_drop]
    · intro t ht
      obtain ⟨x, hxmem, rfl⟩ := List.mem_map.mp ht
      have hxroot : x ∈ rootComments db.comments mid :=
        List.mem_of_mem_drop (List.mem_of_mem_take hxmem)
      have hxprops := List.mem_filter.mp hxroot
      have hx2 : x.movie_id = mid ∧ x.parent_comment_id = none := by
        have := hxprops.2
        rw [Bool.and_eq_true] at this
        exact ⟨by simpa using this.1, by simpa using this.2⟩
      refine ⟨?_, ?_, ?_⟩
      · rw [root_buildTree]
        exact hx2.2
      · rw [root_buildTree]
        exact hx2.1
      · exact buildTree_complete db.comments hacyc2 db.comments.length x
          (List.length_filter_le _ _)

/-- Witness for C9 on `dbRoots`: with 3 root comments and
`limit = 1, offset = 0`, exactly root comment 1 is returned, and the
tree loaded for it is complete (it carries reply 4 and, below it,
reply 5). -/
theorem c9_witness :
    get_comments dbRoots 1 0 1 = .ok (gcTrees dbRoots 1 0 1) ∧
    (gcTrees dbRoots 1 0 1).map CTree.root = [⟨1, "r1", 1, 4, none⟩] ∧
    (gcTrees dbRoots 1 0 1).length = 1 ∧
    completeB dbRoots.comments
        (buildTree dbRoots.comments 5 ⟨1, "r1", 1, 4, none⟩) = true := by
  have h := (c9_root_comments_pagination dbRoots 1 0 1 (by decide)).2
    ⟨1, "t", "d", 0, 4⟩ rfl
  refine ⟨h.1, rfl, ?_, ?_⟩
  · rw [h.2.2.1]
    decide
  · refine (h.2.2.2 (buildTree dbRoots.comments 5 ⟨1, "r1", 1, 4, none⟩) ?_).2.2
    rw [show gcTrees dbRoots 1 0 1
        = [buildTree dbRoots.comments 5 ⟨1, "r1", 1, 4, none⟩] from rfl]
    exact List.mem_singleton.mpr rfl

end MovieApp
